import Mathlib

/-!
Verification of the multinode penalty/constraint framework of bioptim
(src/bioptim/limits/multinode_penalty.py and multinode_objective.py).

The Python classes are shallowly embedded: symbolic CasADi state vectors
become `List Int` (values at evaluation), the external model capabilities
(CoM, CoMdot) and the bidirectional state mapping become record fields
holding plain functions, and Python exceptions become `Except String`.
Pool slots (`nlp.g_internal` / `nlp.J_internal` entries, which are either
the empty list `[]` or a penalty object) become an explicit sum.
-/

namespace Bioptim

/-- Modelled from the spec: the Node Reference markers (misc/enums.py is not
part of the provided sources).  The spec names exactly the four symbolic
markers START, MID, PENULTIMATE, END. -/
inductive Node where
  | START
  | MID
  | PENULTIMATE
  | END
deriving DecidableEq, Repr

/-- Modelled from the spec: the ConstraintType tag marking a penalty as
internally generated versus user-declared (misc/enums.py is not part of the
provided sources). -/
inductive ConstraintType where
  | INTERNAL
  | IMPLICIT
  | USER
deriving DecidableEq, Repr

/-- The possible Python values passed as `first_node` / `second_node` to
`MultinodePenalty.__init__`: a `Node` enum member, an `int`, a `str`, or a
`float` (the float payload is irrelevant to the code, which only inspects
the type). -/
inductive NodeArg where
  | node : Node → NodeArg
  | int : Int → NodeArg
  | str : String → NodeArg
  | float : NodeArg
deriving DecidableEq, Repr

/-- Selection of valid multinode penalty functions (`MultinodePenaltyFcn`). -/
inductive MultinodePenaltyFcn where
  | EQUALITY
  | CUSTOM
  | COM_EQUALITY
  | COM_VELOCITY_EQUALITY
deriving DecidableEq, Repr

/-- The `multinode_penalty` argument of `MultinodePenalty.__init__`: either a
member of the `MultinodePenaltyFcn` enum or some other object (a user
callable, identified here by an opaque handle). -/
inductive PenaltyArg where
  | fcn : MultinodePenaltyFcn → PenaltyArg
  | callable : Nat → PenaltyArg
deriving DecidableEq, Repr

/-- Modelled from the spec: the evaluation-base tag set by
`prepare_multinode_penalties` (`ObjectiveFunction.MayerFunction`, defined in
objective_functions.py which is not part of the provided sources). -/
inductive PenaltyBase where
  | MayerFunction
deriving DecidableEq, Repr

/-- The fields of a `MultinodePenalty` instance that the embedded code reads
or writes.  `list_index` starts at -1 (modelled from the spec: the
`PenaltyOption` base class, not part of the provided sources, initialises it
to -1, "-1 until assigned"), and `base` starts unset. -/
structure MultinodePenalty where
  penalty : PenaltyArg
  custom_function : Option Nat
  min_bound : Rat
  max_bound : Rat
  weight : Rat
  quadratic : Bool
  phase_first_idx : Int
  phase_second_idx : Int
  phase_pre_idx : Int
  phase_post_idx : Int
  first_node : NodeArg
  second_node : NodeArg
  dt : Rat
  node_idx : List Int
  constraint_type : ConstraintType
  list_index : Int
  base : Option PenaltyBase
deriving DecidableEq, Repr

/-- The error message raised by `MultinodePenalty.__init__` on an invalid
node specifier. -/
def invalidNodeMsg : String :=
  "Multi Node Penalty only works with Node.START, Node.MID, Node.PENULTIMATE, Node.END or a int."

/-- The node-specifier test of `MultinodePenalty.__init__`: the argument is
accepted when it is one of the four markers, or otherwise when
`isinstance(arg, int)` holds; any other value raises. -/
def nodeArgAccepted : NodeArg → Bool
  | .node n => n ∈ [Node.START, Node.MID, Node.PENULTIMATE, Node.END]
  | .int _ => true
  | .str _ => false
  | .float => false

/-- The argument rewriting at the top of `MultinodePenalty.__init__`: unless
`force_multinode` is set, a non-`MultinodePenaltyFcn` argument is stored as
`custom_function` and the penalty becomes `CUSTOM`. -/
def wrapCustom (multinode_penalty : PenaltyArg) (custom_function : Option Nat)
    (force_multinode : Bool) : PenaltyArg × Option Nat :=
  match multinode_penalty, force_multinode with
  | .fcn f, _ => (PenaltyArg.fcn f, custom_function)
  | .callable c, true => (PenaltyArg.callable c, custom_function)
  | .callable c, false => (PenaltyArg.fcn .CUSTOM, some c)

/-- `MultinodePenalty.__init__`.  Mirrors the source: the `force_multinode`
hack, the wrapping of a non-`MultinodePenaltyFcn` argument into
`CUSTOM` with the argument stored as `custom_function`, the node-specifier
validation (raising `NotImplementedError`), and the field assignments. -/
def mkMultinodePenalty (phase_first_idx phase_second_idx : Int)
    (first_node second_node : NodeArg)
    (multinode_penalty : PenaltyArg) (custom_function : Option Nat := none)
    (min_bound : Rat := 0) (max_bound : Rat := 0) (weight : Rat := 0)
    (force_multinode : Bool := false) : Except String MultinodePenalty :=
  let mp := (wrapCustom multinode_penalty custom_function force_multinode).1
  let cf := (wrapCustom multinode_penalty custom_function force_multinode).2
  if ¬ nodeArgAccepted first_node then
    .error invalidNodeMsg
  else if ¬ nodeArgAccepted second_node then
    .error invalidNodeMsg
  else
    .ok
      { penalty := mp
        custom_function := cf
        min_bound := min_bound
        max_bound := max_bound
        weight := weight
        quadratic := true
        phase_first_idx := phase_first_idx
        phase_second_idx := phase_second_idx
        phase_pre_idx := phase_first_idx
        phase_post_idx := phase_second_idx
        first_node := first_node
        second_node := second_node
        dt := 1
        node_idx := [0]
        constraint_type := ConstraintType.INTERNAL
        list_index := -1
        base := none }

/-- Whether an `Except` result is a success. -/
def exceptIsOk {ε α : Type} : Except ε α → Bool
  | .ok _ => true
  | .error _ => false

/-- A slot of `g_internal` / `J_internal`: the Python code stores either the
empty list `[]` (falsy, i.e. an empty slot) or the penalty object itself. -/
inductive PoolSlot where
  | empty
  | filled : MultinodePenalty → PoolSlot
deriving DecidableEq, Repr

/-- Whether a pool slot is falsy in Python (`not j`). -/
def PoolSlot.isEmptySlot : PoolSlot → Bool
  | .empty => true
  | .filled _ => false

/-- The two internal penalty pools of the owner (an `nlp` or the `ocp`). -/
structure PoolState where
  g_internal : List PoolSlot
  J_internal : List PoolSlot
deriving DecidableEq, Repr

/-- The index of the first falsy slot, mirroring
`for i, j in enumerate(g_to_add_to): if not j: ...`. -/
def findEmptySlot : List PoolSlot → Option Nat
  | [] => none
  | s :: rest =>
    if s.isEmptySlot then some 0 else (findEmptySlot rest).map (· + 1)

/-- The slot-reservation loop body of `MultinodePenalty.clear_penalty`
acting on the chosen pool `g_to_add_to`: if `list_index < 0`, claim the
first empty slot, or append a fresh empty slot when none exists; otherwise
append empty slots until `list_index` is in range and reset that slot to
empty.  Returns the assigned `list_index` and the updated pool. -/
def reservePool (list_index : Int) (pool : List PoolSlot) : Int × List PoolSlot :=
  if list_index < 0 then
    match findEmptySlot pool with
    | some i => ((i : Int), pool)
    | none => ((pool.length : Int), pool ++ [PoolSlot.empty])
  else
    let grown := pool ++ List.replicate (list_index.toNat + 1 - pool.length) PoolSlot.empty
    (list_index, grown.set list_index.toNat PoolSlot.empty)

/-- `MultinodePenalty.clear_penalty`: choose `g_internal` when
`self.weight == 0` and `J_internal` otherwise, then run the reservation
loop on the chosen pool.  Returns the updated penalty and pools. -/
def clear_penalty (p : MultinodePenalty) (s : PoolState) :
    MultinodePenalty × PoolState :=
  if p.weight = 0 then
    ({ p with list_index := (reservePool p.list_index s.g_internal).1 },
     { s with g_internal := (reservePool p.list_index s.g_internal).2 })
  else
    ({ p with list_index := (reservePool p.list_index s.J_internal).1 },
     { s with J_internal := (reservePool p.list_index s.J_internal).2 })

/-- Python list item assignment `pool[i] = v`: a negative index counts from
the end, and an out-of-range index raises `IndexError` (`none`). -/
def pyListSet {α : Type} (l : List α) (i : Int) (v : α) : Option (List α) :=
  let j := if i < 0 then i + l.length else i
  if 0 ≤ j ∧ j < l.length then some (l.set j.toNat v) else none

/-- `MultinodePenalty._add_penalty_to_pool`: choose `g_internal` when
`self.weight == 0` and `J_internal` otherwise, then execute
`pool[self.list_index] = self`. -/
def add_penalty_to_pool (p : MultinodePenalty) (s : PoolState) :
    Option PoolState :=
  if p.weight = 0 then
    (pyListSet s.g_internal p.list_index (.filled p)).map
      (fun pool => { s with g_internal := pool })
  else
    (pyListSet s.J_internal p.list_index (.filled p)).map
      (fun pool => { s with J_internal := pool })

/-- The first-empty-slot loop as duplicated in
`MultinodeObjective.clear_penalty` (multinode_objective.py repeats the loop
verbatim rather than delegating). -/
def findEmptySlotObj : List PoolSlot → Option Nat
  | [] => none
  | s :: rest =>
    if s.isEmptySlot then some 0 else (findEmptySlotObj rest).map (· + 1)

/-- The slot-reservation loop body as duplicated in
`MultinodeObjective.clear_penalty`. -/
def reservePoolObj (list_index : Int) (pool : List PoolSlot) : Int × List PoolSlot :=
  if list_index < 0 then
    match findEmptySlotObj pool with
    | some i => ((i : Int), pool)
    | none => ((pool.length : Int), pool ++ [PoolSlot.empty])
  else
    let grown := pool ++ List.replicate (list_index.toNat + 1 - pool.length) PoolSlot.empty
    (list_index, grown.set list_index.toNat PoolSlot.empty)

/-- `MultinodeObjective.clear_penalty`: always acts on `J_internal`,
without consulting `weight`. -/
def obj_clear_penalty (p : MultinodePenalty) (s : PoolState) :
    MultinodePenalty × PoolState :=
  ({ p with list_index := (reservePoolObj p.list_index s.J_internal).1 },
   { s with J_internal := (reservePoolObj p.list_index s.J_internal).2 })

/-- `MultinodeObjective._add_penalty_to_pool`: always executes
`pool[self.list_index] = self` on `J_internal`. -/
def obj_add_penalty_to_pool (p : MultinodePenalty) (s : PoolState) :
    Option PoolState :=
  (pyListSet s.J_internal p.list_index (.filled p)).map
    (fun pool => { s with J_internal := pool })

/-- Error message of `prepare_multinode_penalties` for a phase index at or
above the number of phases. -/
def phaseTooHighMsg : String :=
  "Phase index of the multinode_penalty is higher than the number of phases"

/-- Error message of `prepare_multinode_penalties` for a negative phase
index. -/
def phaseNegativeMsg : String :=
  "Phase index of the multinode_penalty need to be positive"

/-- The per-entry mutation of `prepare_multinode_penalties`:
`if mnc.weight: mnc.base = ObjectiveFunction.MayerFunction`. -/
def tagMayerBase (mnc : MultinodePenalty) : MultinodePenalty :=
  if mnc.weight ≠ 0 then { mnc with base := some PenaltyBase.MayerFunction } else mnc

/-- `MultinodePenaltyList.prepare_multinode_penalties`: for each entry in
order, raise when a phase index is at or above `n_phases`, then raise when
one is negative; otherwise tag nonzero-weight entries with the Mayer base
and append the entry to the returned list. -/
def prepare_multinode_penalties (n_phases : Int) :
    List MultinodePenalty → Except String (List MultinodePenalty)
  | [] => .ok []
  | mnc :: rest =>
    if mnc.phase_first_idx ≥ n_phases ∨ mnc.phase_second_idx ≥ n_phases then
      .error phaseTooHighMsg
    else if mnc.phase_first_idx < 0 ∨ mnc.phase_second_idx < 0 then
      .error phaseNegativeMsg
    else
      (prepare_multinode_penalties n_phases rest).map (tagMayerBase mnc :: ·)

/-- `MultinodePenaltyList.add`: a non-`MultinodePenaltyFcn` argument is
stored as `custom_function` and replaced by `CUSTOM`, then a new
`MultinodePenalty` is constructed and appended to the list. -/
def multinodePenaltyListAdd (l : List MultinodePenalty)
    (multinode_penalty : PenaltyArg)
    (phase_first_idx phase_second_idx : Int)
    (first_node second_node : NodeArg)
    (min_bound : Rat := 0) (max_bound : Rat := 0) (weight : Rat := 0) :
    Except String (List MultinodePenalty) :=
  let mp :=
    match multinode_penalty with
    | .fcn f => (PenaltyArg.fcn f, (none : Option Nat))
    | .callable c => (PenaltyArg.fcn .CUSTOM, some c)
  (mkMultinodePenalty phase_first_idx phase_second_idx first_node second_node
      mp.1 mp.2 min_bound max_bound weight).map (fun p => l ++ [p])

/-- `MultinodeObjective.__init__`: runs the `Objective` initialiser and then
`MultinodePenalty.__init__`, which is called without forwarding `weight`,
`custom_function`, `min_bound` or `max_bound`, so those fields end at the
`MultinodePenalty.__init__` defaults; every field modelled here is
(re)assigned by that final call. -/
def mkMultinodeObjective (phase_first_idx phase_second_idx : Int)
    (first_node second_node : NodeArg)
    (multinode_objective : PenaltyArg) : Except String MultinodePenalty :=
  mkMultinodePenalty phase_first_idx phase_second_idx first_node second_node
    multinode_objective none 0 0 0

/-- The per-node state container `nlp.states` as consumed by the strategy
functions: the start-of-interval vector `cx`, the end-of-interval vector
`cx_end`, the row indices of the `q` and `qdot` sub-blocks
(`nlp.states["q"].index`, `nlp.states["qdot"].index`), and the shapes of
the per-key blocks in key order (`nlp.states[key].mx.shape`, with `q`
first and `qdot` second). -/
structure NlpStates where
  cx : List Int
  cx_end : List Int
  qIndexRows : List Nat
  qdotIndexRows : List Nat
  keyShapes : List Nat

/-- The physical-model collaborator: `model.CoM` and `model.CoMdot`,
consumed as opaque symbolic capabilities. -/
structure BioModel where
  CoM : List Int → List Int
  CoMdot : List Int → List Int → List Int

/-- A node context (`nlp_pre` / `nlp_post`). -/
structure Nlp where
  states : NlpStates
  model : BioModel

/-- The bidirectional states mapping collaborator
(`multinode_penalty.states_mapping`), consumed through its two `map`
directions. -/
structure BiMapping where
  to_second : List Int → List Int
  to_first : List Int → List Int

/-- Row selection `v[index, :]` of a CasADi column vector. -/
def rowSelect (v : List Int) (index : List Nat) : List Int :=
  index.map (fun i => v.getD i 0)

/-- The `i`-th block of the vertical concatenation of per-key symbol blocks
(`vertcat(*states_post_sym_list)`), recovered from the concatenated
vector. -/
def symBlock (keyShapes : List Nat) (v : List Int) (i : Nat) : List Int :=
  (v.drop (keyShapes.take i).sum).take (keyShapes.getD i 0)

/-- The dimension-mismatch message of the equality-family strategies: it
reports both shapes and suggests a custom transition or a states_mapping. -/
def continuityMismatchMsg (n_pre n_post : Nat) : String :=
  s!"Continuity cannot be established since the number of x to be matched is {n_pre} in the pre-transition phase and {n_post} post-transition phase. Please use a custom transition or supply states_mapping"

/-- `MultinodePenaltyFunctions.Functions.equality`: map the pre node's
end-of-interval state through `to_second` and the post node's
start-of-interval state through `to_first`; raise on a shape mismatch,
otherwise return the elementwise difference. -/
def equality (states_mapping : BiMapping) (nlp_pre nlp_post : Nlp) :
    Except String (List Int) :=
  let states_pre := states_mapping.to_second (nlp_pre.states.cx_end)
  let states_post := states_mapping.to_first (nlp_post.states.cx)
  if states_pre.length ≠ states_post.length then
    .error (continuityMismatchMsg states_pre.length states_post.length)
  else
    .ok (List.zipWith (· - ·) states_pre states_post)

/-- `MultinodePenaltyFunctions.Functions.com_equality`: after the same
mapping and shape check as `equality`, build the function
`(states_pre, states_post_sym) ↦ CoM_pre(states_pre[q_index]) -
CoM_post(states_post_sym_list[0])` with `biorbd.to_casadi_func` and call it
at `(nlp_pre.states.cx, nlp_post.states.cx)`; a call of the built CasADi
function substitutes the call arguments for its two input vectors. -/
def com_equality (states_mapping : BiMapping) (nlp_pre nlp_post : Nlp) :
    Except String (List Int) :=
  let states_pre := states_mapping.to_second (nlp_pre.states.cx_end)
  let states_post := states_mapping.to_first (nlp_post.states.cx)
  if states_pre.length ≠ states_post.length then
    .error (continuityMismatchMsg states_pre.length states_post.length)
  else
    let comDiff : List Int → List Int → List Int := fun a b =>
      List.zipWith (· - ·)
        (nlp_pre.model.CoM (rowSelect a nlp_pre.states.qIndexRows))
        (nlp_post.model.CoM (symBlock nlp_post.states.keyShapes b 0))
    let pre_states_cx := nlp_pre.states.cx
    let post_states_cx := nlp_post.states.cx
    .ok (comDiff pre_states_cx post_states_cx)

/-- `MultinodePenaltyFunctions.Functions.com_velocity_equality`: as
`com_equality` with `CoMdot` of the `q` and `qdot` blocks, except that the
built function is called at `(nlp_pre.states.cx_end, nlp_post.states.cx)`. -/
def com_velocity_equality (states_mapping : BiMapping) (nlp_pre nlp_post : Nlp) :
    Except String (List Int) :=
  let states_pre := states_mapping.to_second (nlp_pre.states.cx_end)
  let states_post := states_mapping.to_first (nlp_post.states.cx)
  if states_pre.length ≠ states_post.length then
    .error (continuityMismatchMsg states_pre.length states_post.length)
  else
    let comDotDiff : List Int → List Int → List Int := fun a b =>
      List.zipWith (· - ·)
        (nlp_pre.model.CoMdot (rowSelect a nlp_pre.states.qIndexRows)
          (rowSelect a nlp_pre.states.qdotIndexRows))
        (nlp_post.model.CoMdot (symBlock nlp_post.states.keyShapes b 0)
          (symBlock nlp_post.states.keyShapes b 1))
    let pre_states_cx := nlp_pre.states.cx_end
    let post_states_cx := nlp_post.states.cx
    .ok (comDotDiff pre_states_cx post_states_cx)

/-- The slot of a pool at a (possibly negative) `list_index`: `none` when
the index is negative or out of range. -/
def slotAt (pool : List PoolSlot) (i : Int) : Option PoolSlot :=
  if i < 0 then none else pool[i.toNat]?

/-- The pool `clear_penalty` and `_add_penalty_to_pool` act on for a given
penalty: `g_internal` when `weight == 0`, `J_internal` otherwise. -/
def targetPool (p : MultinodePenalty) (s : PoolState) : List PoolSlot :=
  if p.weight = 0 then s.g_internal else s.J_internal

/-- Validity of an entry's phase indices against the number of phases, as
checked by `prepare_multinode_penalties`. -/
abbrev phaseIdxValid (n_phases : Int) (e : MultinodePenalty) : Prop :=
  0 ≤ e.phase_first_idx ∧ e.phase_first_idx < n_phases ∧
    0 ≤ e.phase_second_idx ∧ e.phase_second_idx < n_phases

/-- A concrete penalty record, as produced by `mkMultinodePenalty` for an
`EQUALITY` penalty between `(phase a, node 0)` and `(phase b, node 0)` with
the given weight, at the given `list_index` stage of its lifecycle. -/
def samplePenalty (a b : Int) (w : Rat) (li : Int) : MultinodePenalty :=
  { penalty := .fcn .EQUALITY
    custom_function := none
    min_bound := 0
    max_bound := 0
    weight := w
    quadratic := true
    phase_first_idx := a
    phase_second_idx := b
    phase_pre_idx := a
    phase_post_idx := b
    first_node := .int 0
    second_node := .int 0
    dt := 1
    node_idx := [0]
    constraint_type := ConstraintType.INTERNAL
    list_index := li
    base := none }

/-- A concrete identity states mapping. -/
def sampleMapping : BiMapping :=
  { to_second := fun v => v, to_first := fun v => v }

/-- A concrete physical model with two degrees of freedom whose CoM capability
averages nothing fancy: it returns its argument blocks unchanged enough to
be computed on concrete inputs. -/
def sampleModel : BioModel :=
  { CoM := fun q => q.map (· + 1)
    CoMdot := fun q qdot => List.zipWith (· + ·) q qdot }

/-- A concrete node context with a 4-dimensional state `[q (2), qdot (2)]`. -/
def sampleNlp (cx cx_end : List Int) : Nlp :=
  { states :=
      { cx := cx
        cx_end := cx_end
        qIndexRows := [0, 1]
        qdotIndexRows := [2, 3]
        keyShapes := [2, 2] }
    model := sampleModel }

lemma isEmptySlot_iff (s : PoolSlot) : s.isEmptySlot = true ↔ s = .empty := by
  cases s <;> simp [PoolSlot.isEmptySlot]

lemma findEmptySlot_spec : ∀ {pool : List PoolSlot} {i : Nat},
    findEmptySlot pool = some i → pool[i]? = some .empty := by
  intro pool
  induction pool with
  | nil => intro i h; simp [findEmptySlot] at h
  | cons s rest ih =>
    intro i h
    by_cases hs : s.isEmptySlot = true
    · simp [findEmptySlot, hs] at h
      subst h
      simp [(isEmptySlot_iff s).mp hs]
    · simp [findEmptySlot, hs] at h
      obtain ⟨j, hj, rfl⟩ := h
      simpa using ih hj

lemma reservePool_slot (k : Int) (pool : List PoolSlot) :
    0 ≤ (reservePool k pool).1 ∧
      (reservePool k pool).2[(reservePool k pool).1.toNat]? = some .empty := by
  unfold reservePool
  split
  · cases hf : findEmptySlot pool with
    | some i => simpa using findEmptySlot_spec hf
    | none =>
      refine ⟨by simp, ?_⟩
      simp only [Int.toNat_natCast]
      rw [List.getElem?_append_right (le_refl pool.length)]
      simp
  · rename_i hk
    refine ⟨le_of_not_lt hk, ?_⟩
    apply List.getElem?_set_self
    simp only [List.length_append, List.length_replicate]
    omega

lemma reservePool_length_mono (k : Int) (pool : List PoolSlot) :
    pool.length ≤ (reservePool k pool).2.length := by
  unfold reservePool
  split
  · cases hf : findEmptySlot pool <;> simp
  · simp only [List.length_set, List.length_append, List.length_replicate]
    omega

lemma reservePool_inrange (k : Int) (pool : List PoolSlot) (h0 : 0 ≤ k)
    (h : k.toNat < pool.length) :
    reservePool k pool = (k, pool.set k.toNat .empty) := by
  unfold reservePool
  rw [if_neg (not_lt.mpr h0)]
  have hz : k.toNat + 1 - pool.length = 0 := by omega
  simp [hz]

lemma reservePool_grow (k : Nat) (pool : List PoolSlot) (h : pool.length < k + 1) :
    (reservePool (k : Int) pool).1 = (k : Int)
    ∧ (reservePool (k : Int) pool).2.length = k + 1
    ∧ (∀ i : Nat, pool.length ≤ i → i ≤ k →
        (reservePool (k : Int) pool).2[i]? = some .empty) := by
  unfold reservePool
  rw [if_neg (by simp)]
  simp only [Int.toNat_natCast]
  refine ⟨by trivial, ?_, ?_⟩
  · simp only [List.length_set, List.length_append, List.length_replicate]
    omega
  · intro i hi hik
    have hlen : i < (pool ++ List.replicate (k + 1 - pool.length) PoolSlot.empty).length := by
      simp only [List.length_append, List.length_replicate]; omega
    rcases eq_or_ne i k with rfl | hne
    · exact List.getElem?_set_self hlen
    · rw [List.getElem?_set_ne (fun hc => hne hc.symm)]
      rw [List.getElem?_append_right hi]
      rw [List.getElem?_replicate]
      simp only [if_pos (by omega : i - pool.length < k + 1 - pool.length)]

lemma findEmptySlotObj_eq : ∀ pool, findEmptySlotObj pool = findEmptySlot pool := by
  intro pool
  induction pool with
  | nil => rfl
  | cons s rest ih => simp [findEmptySlotObj, findEmptySlot, ih]

lemma reservePoolObj_eq (k : Int) (pool : List PoolSlot) :
    reservePoolObj k pool = reservePool k pool := by
  unfold reservePoolObj reservePool
  rw [findEmptySlotObj_eq]

lemma mk_ok_fields {p1 p2 : Int} {fn sn : NodeArg} {arg : PenaltyArg}
    {cf : Option Nat} {mb Mb w : Rat} {fm : Bool} {q : MultinodePenalty}
    (h : mkMultinodePenalty p1 p2 fn sn arg cf mb Mb w fm = .ok q) :
    q.quadratic = true ∧ q.constraint_type = ConstraintType.INTERNAL ∧
      q.weight = w ∧ q.list_index = -1 := by
  unfold mkMultinodePenalty at h
  split at h
  · exact absurd h (by simp)
  · split at h
    · exact absurd h (by simp)
    · cases h
      exact ⟨rfl, rfl, rfl, rfl⟩

lemma mk_isOk (p1 p2 : Int) (fn sn : NodeArg) (arg : PenaltyArg)
    (cf : Option Nat) (mb Mb w : Rat) (fm : Bool) :
    exceptIsOk (mkMultinodePenalty p1 p2 fn sn arg cf mb Mb w fm) =
      (nodeArgAccepted fn && nodeArgAccepted sn) := by
  unfold mkMultinodePenalty
  by_cases h1 : nodeArgAccepted fn = true <;>
    by_cases h2 : nodeArgAccepted sn = true <;>
      simp [h1, h2, exceptIsOk]

lemma mk_error (p1 p2 : Int) (fn sn : NodeArg) (arg : PenaltyArg)
    (cf : Option Nat) (mb Mb w : Rat) (fm : Bool)
    (h : ¬(nodeArgAccepted fn = true ∧ nodeArgAccepted sn = true)) :
    mkMultinodePenalty p1 p2 fn sn arg cf mb Mb w fm = .error invalidNodeMsg := by
  unfold mkMultinodePenalty
  by_cases h1 : nodeArgAccepted fn = true
  · have h2 : ¬ nodeArgAccepted sn = true := fun hc => h ⟨h1, hc⟩
    simp [h1, h2]
  · simp [h1]

lemma nodeArgAccepted_iff (a : NodeArg) :
    nodeArgAccepted a = true ↔ (∃ n, a = .node n) ∨ (∃ i, a = .int i) := by
  cases a with
  | node n => simp only [nodeArgAccepted]; cases n <;> simp
  | int i => simp [nodeArgAccepted]
  | str v => simp [nodeArgAccepted]
  | float => simp [nodeArgAccepted]

lemma exceptIsOk_map {ε α β : Type} (f : α → β) (x : Except ε α) :
    exceptIsOk (x.map f) = exceptIsOk x := by
  cases x <;> rfl

lemma map_append_ok {ε α : Type} {x : Except ε α} {l l' : List α}
    (h : x.map (fun p => l ++ [p]) = .ok l') : ∃ q, x = .ok q ∧ l' = l ++ [q] := by
  cases x with
  | error e => exact absurd h (by simp [Except.map])
  | ok q =>
    simp only [Except.map] at h
    cases h
    exact ⟨q, rfl, rfl⟩

lemma prepare_ok_of_valid (n : Int) :
    ∀ es : List MultinodePenalty, (∀ e ∈ es, phaseIdxValid n e) →
      prepare_multinode_penalties n es = .ok (es.map tagMayerBase) := by
  intro es
  induction es with
  | nil => intro _; rfl
  | cons mnc rest ih =>
    intro hv
    obtain ⟨ha, hb, hc, hd⟩ := hv mnc (by simp)
    rw [prepare_multinode_penalties]
    rw [if_neg (by omega)]
    rw [if_neg (by omega)]
    rw [ih (fun e he => hv e (by simp [he]))]
    rfl

lemma prepare_error_of_invalid (n : Int) :
    ∀ es : List MultinodePenalty, (∃ e ∈ es, ¬ phaseIdxValid n e) →
      exceptIsOk (prepare_multinode_penalties n es) = false := by
  intro es
  induction es with
  | nil => intro h; simp at h
  | cons mnc rest ih =>
    intro h
    rw [prepare_multinode_penalties]
    by_cases h1 : mnc.phase_first_idx ≥ n ∨ mnc.phase_second_idx ≥ n
    · rw [if_pos h1]; rfl
    · rw [if_neg h1]
      by_cases h2 : mnc.phase_first_idx < 0 ∨ mnc.phase_second_idx < 0
      · rw [if_pos h2]; rfl
      · rw [if_neg h2]
        rw [exceptIsOk_map]
        apply ih
        obtain ⟨e, he, hne⟩ := h
        rcases List.mem_cons.mp he with rfl | hmem
        · exact absurd ⟨by omega, by omega, by omega, by omega⟩ hne
        · exact ⟨e, hmem, hne⟩

lemma prepare_error_first (n : Int) :
    ∀ (pre : List MultinodePenalty) (mnc : MultinodePenalty)
      (post : List MultinodePenalty), (∀ e ∈ pre, phaseIdxValid n e) →
      ¬ phaseIdxValid n mnc →
      prepare_multinode_penalties n (pre ++ mnc :: post) =
        .error (if mnc.phase_first_idx ≥ n ∨ mnc.phase_second_idx ≥ n
                then phaseTooHighMsg else phaseNegativeMsg) := by
  intro pre
  induction pre with
  | nil =>
    intro mnc post _ hinv
    rw [List.nil_append, prepare_multinode_penalties]
    by_cases h1 : mnc.phase_first_idx ≥ n ∨ mnc.phase_second_idx ≥ n
    · rw [if_pos h1, if_pos h1]
    · rw [if_neg h1, if_neg h1]
      rw [if_pos (by simp only [phaseIdxValid, not_and_or] at hinv; omega)]
  | cons p rest ih =>
    intro mnc post hv hinv
    obtain ⟨ha, hb, hc, hd⟩ := hv p (by simp)
    rw [List.cons_append, prepare_multinode_penalties]
    rw [if_neg (by omega), if_neg (by omega)]
    rw [ih mnc post (fun e he => hv e (by simp [he])) hinv]
    rfl

/-- C1 (counterexample): constructing a `MultinodePenalty` with the negative
integer -1 as `first_node` succeeds, because the source only tests
`isinstance(first_node, int)`; the claim that a negative integer raises a
configuration error is therefore false on the code. -/
theorem c1_negative_int_accepted :
    exceptIsOk (mkMultinodePenalty 0 1 (.int (-1)) (.int 0) (.fcn .EQUALITY)
      none 0 0 0 false) = true := by
  rfl

/-- C1 (amended): construction succeeds exactly when each of `first_node`
and `second_node` is one of the markers START, MID, PENULTIMATE, END or an
integer — any integer, negative ones included; for every other value (a
string, a float) construction fails with the NotImplementedError message
naming the allowed markers. -/
theorem c1_node_specifier_validation (p1 p2 : Int) (fn sn : NodeArg)
    (arg : PenaltyArg) (cf : Option Nat) (mb Mb w : Rat) (fm : Bool) :
    (exceptIsOk (mkMultinodePenalty p1 p2 fn sn arg cf mb Mb w fm) = true ↔
      (((∃ n, fn = .node n) ∨ (∃ i, fn = .int i)) ∧
        ((∃ n, sn = .node n) ∨ (∃ i, sn = .int i))))
  ∧ (exceptIsOk (mkMultinodePenalty p1 p2 fn sn arg cf mb Mb w fm) = false →
      mkMultinodePenalty p1 p2 fn sn arg cf mb Mb w fm = .error invalidNodeMsg) := by
  constructor
  · rw [mk_isOk]
    rw [Bool.and_eq_true]
    rw [nodeArgAccepted_iff, nodeArgAccepted_iff]
  · intro h
    apply mk_error
    intro ⟨h1, h2⟩
    rw [mk_isOk, h1, h2] at h
    simp at h

/-- C1 (witness): a string as `first_node` makes construction fail with the
invalid-node message. -/
theorem c1_witness :
    mkMultinodePenalty 0 1 (.str "hello") (.int 0) (.fcn .EQUALITY)
      none 0 0 0 false = .error invalidNodeMsg :=
  (c1_node_specifier_validation 0 1 (.str "hello") (.int 0) (.fcn .EQUALITY)
    none 0 0 0 false).2 (by rfl)

/-- C2: `prepare_multinode_penalties` succeeds exactly on entry lists whose
phase indices all satisfy `0 ≤ idx < n_phases`, returning the added entries
in insertion order (nonzero-weight entries tagged with the Mayer base) with
the same length; a list containing an entry with a negative or too-large
phase index makes it fail, and the error raised is the one of the first
invalid entry (too-high checked before negative). -/
theorem c2_prepare_phase_validation (n : Int) (es : List MultinodePenalty) :
    ((∀ e ∈ es, phaseIdxValid n e) →
      prepare_multinode_penalties n es = .ok (es.map tagMayerBase)
      ∧ (es.map tagMayerBase).length = es.length)
  ∧ ((∃ e ∈ es, ¬ phaseIdxValid n e) →
      exceptIsOk (prepare_multinode_penalties n es) = false)
  ∧ (∀ pre mnc post, es = pre ++ mnc :: post →
      (∀ e ∈ pre, phaseIdxValid n e) → ¬ phaseIdxValid n mnc →
      prepare_multinode_penalties n es =
        .error (if mnc.phase_first_idx ≥ n ∨ mnc.phase_second_idx ≥ n
                then phaseTooHighMsg else phaseNegativeMsg)) := by
  refine ⟨?_, ?_, ?_⟩
  · intro hv
    exact ⟨prepare_ok_of_valid n es hv, List.length_map es tagMayerBase⟩
  · exact prepare_error_of_invalid n es
  · intro pre mnc post hsplit hv hinv
    subst hsplit
    exact prepare_error_first n pre mnc post hv hinv

/-- C2 (witness): a single valid entry is returned unchanged under two
phases, and a single entry whose first phase index is 5 under two phases
fails with the too-high message. -/
theorem c2_witness :
    prepare_multinode_penalties 2 [samplePenalty 0 1 0 (-1)]
        = .ok [samplePenalty 0 1 0 (-1)]
    ∧ exceptIsOk (prepare_multinode_penalties 2 [samplePenalty 5 0 0 (-1)])
        = false := by
  constructor
  · have h := (c2_prepare_phase_validation 2 [samplePenalty 0 1 0 (-1)]).1
      (by intro e he; simp at he; subst he; refine ⟨by decide, by decide, by decide, by decide⟩)
    simpa [tagMayerBase, samplePenalty] using h.1
  · exact (c2_prepare_phase_validation 2 [samplePenalty 5 0 0 (-1)]).2.1
      ⟨samplePenalty 5 0 0 (-1), by simp, by intro hc; exact absurd hc.2.1 (by decide)⟩

/-- C9: every successful construction — directly through
`MultinodePenalty.__init__`, through `MultinodePenaltyList.add`, or through
`MultinodeObjective.__init__` — yields an entry whose `constraint_type` is
`ConstraintType.INTERNAL`; construction never tags an entry as
user-declared. -/
theorem c9_constraint_type_internal :
    (∀ (p1 p2 : Int) (fn sn : NodeArg) (arg : PenaltyArg) (cf : Option Nat)
        (mb Mb w : Rat) (fm : Bool) (q : MultinodePenalty),
        mkMultinodePenalty p1 p2 fn sn arg cf mb Mb w fm = .ok q →
        q.constraint_type = ConstraintType.INTERNAL)
  ∧ (∀ (l : List MultinodePenalty) (arg : PenaltyArg) (p1 p2 : Int)
        (fn sn : NodeArg) (mb Mb w : Rat) (l' : List MultinodePenalty),
        multinodePenaltyListAdd l arg p1 p2 fn sn mb Mb w = .ok l' →
        ∃ q, l' = l ++ [q] ∧ q.constraint_type = ConstraintType.INTERNAL)
  ∧ (∀ (p1 p2 : Int) (fn sn : NodeArg) (arg : PenaltyArg)
        (q : MultinodePenalty),
        mkMultinodeObjective p1 p2 fn sn arg = .ok q →
        q.constraint_type = ConstraintType.INTERNAL) := by
  refine ⟨?_, ?_, ?_⟩
  · intro p1 p2 fn sn arg cf mb Mb w fm q h
    exact (mk_ok_fields h).2.1
  · intro l arg p1 p2 fn sn mb Mb w l' h
    unfold multinodePenaltyListAdd at h
    dsimp only at h
    obtain ⟨q, hq, rfl⟩ := map_append_ok h
    exact ⟨q, rfl, (mk_ok_fields hq).2.1⟩
  · intro p1 p2 fn sn arg q h
    unfold mkMultinodeObjective at h
    exact (mk_ok_fields h).2.1

/-- C9 (witness): the three construction paths at concrete arguments all
yield `constraint_type = INTERNAL`. -/
theorem c9_witness :
    (samplePenalty 0 1 5 (-1)).constraint_type = ConstraintType.INTERNAL ∧
      (samplePenalty 0 1 0 (-1)).constraint_type = ConstraintType.INTERNAL :=
  ⟨c9_constraint_type_internal.1 0 1 (.int 0) (.int 0) (.fcn .EQUALITY)
      none 0 0 5 false (samplePenalty 0 1 5 (-1)) (by rfl),
    c9_constraint_type_internal.2.2 0 1 (.int 0) (.int 0) (.fcn .EQUALITY)
      (samplePenalty 0 1 0 (-1)) (by rfl)⟩

/-- C3: with `weight == 0`, `clear_penalty` runs the reservation on
`g_internal` and leaves `J_internal` untouched, and `_add_penalty_to_pool`
installs into `g_internal`; with `weight != 0` the two operations act on
`J_internal` and leave `g_internal` untouched, and every entry produced by
construction has `quadratic = true` (in particular the nonzero-weight
ones). -/
theorem c3_weight_routing (p : MultinodePenalty) (s : PoolState) :
    (p.weight = 0 →
        (clear_penalty p s).2.J_internal = s.J_internal
      ∧ (clear_penalty p s).2.g_internal = (reservePool p.list_index s.g_internal).2
      ∧ add_penalty_to_pool p s =
          (pyListSet s.g_internal p.list_index (.filled p)).map
            (fun pool => { s with g_internal := pool }))
  ∧ (p.weight ≠ 0 →
        (clear_penalty p s).2.g_internal = s.g_internal
      ∧ (clear_penalty p s).2.J_internal = (reservePool p.list_index s.J_internal).2
      ∧ add_penalty_to_pool p s =
          (pyListSet s.J_internal p.list_index (.filled p)).map
            (fun pool => { s with J_internal := pool }))
  ∧ (∀ (p1 p2 : Int) (fn sn : NodeArg) (arg : PenaltyArg) (cf : Option Nat)
        (mb Mb w : Rat) (fm : Bool) (q : MultinodePenalty),
        mkMultinodePenalty p1 p2 fn sn arg cf mb Mb w fm = .ok q →
        q.quadratic = true) := by
  refine ⟨?_, ?_, ?_⟩
  · intro hw
    refine ⟨?_, ?_, ?_⟩ <;> simp [clear_penalty, add_penalty_to_pool, hw]
  · intro hw
    refine ⟨?_, ?_, ?_⟩ <;> simp [clear_penalty, add_penalty_to_pool, hw]
  · intro p1 p2 fn sn arg cf mb Mb w fm q h
    exact (mk_ok_fields h).1

/-- C3 (witness): routing at a zero-weight and at a weight-5 penalty on a
concrete pool state, and the quadratic flag of a weight-5 construction. -/
theorem c3_witness :
    (clear_penalty (samplePenalty 0 1 0 (-1))
        { g_internal := [], J_internal := [.filled (samplePenalty 0 1 0 0)] }).2.J_internal
      = [.filled (samplePenalty 0 1 0 0)]
  ∧ (clear_penalty (samplePenalty 0 1 5 (-1))
        { g_internal := [.filled (samplePenalty 0 1 0 0)], J_internal := [] }).2.g_internal
      = [.filled (samplePenalty 0 1 0 0)]
  ∧ (samplePenalty 0 1 5 (-1)).quadratic = true :=
  ⟨((c3_weight_routing (samplePenalty 0 1 0 (-1))
      { g_internal := [], J_internal := [.filled (samplePenalty 0 1 0 0)] }).1
      (by decide)).1,
   ((c3_weight_routing (samplePenalty 0 1 5 (-1))
      { g_internal := [.filled (samplePenalty 0 1 0 0)], J_internal := [] }).2.1
      (by decide)).1,
   (c3_weight_routing (samplePenalty 0 1 5 (-1))
      { g_internal := [], J_internal := [] }).2.2 0 1 (.int 0) (.int 0)
      (.fcn .EQUALITY) none 0 0 5 false (samplePenalty 0 1 5 (-1)) (by rfl)⟩

/-- C5: slot reservation is idempotent — a second `clear_penalty` call
assigns the same `list_index`, and after each of the two calls the slot at
that index of the target pool is empty. -/
theorem c5_clear_penalty_idempotent (p : MultinodePenalty) (s : PoolState) :
    ((clear_penalty (clear_penalty p s).1 (clear_penalty p s).2).1).list_index
      = ((clear_penalty p s).1).list_index
  ∧ slotAt (targetPool p (clear_penalty p s).2) ((clear_penalty p s).1).list_index
      = some .empty
  ∧ slotAt
      (targetPool p (clear_penalty (clear_penalty p s).1 (clear_penalty p s).2).2)
      ((clear_penalty (clear_penalty p s).1 (clear_penalty p s).2).1).list_index
      = some .empty := by
  by_cases hw : p.weight = 0
  · obtain ⟨hge, hslot⟩ := reservePool_slot p.list_index s.g_internal
    have hlt : (reservePool p.list_index s.g_internal).1.toNat
        < (reservePool p.list_index s.g_internal).2.length :=
      (List.getElem?_eq_some.mp hslot).1
    have hres := reservePool_inrange (reservePool p.list_index s.g_internal).1
      (reservePool p.list_index s.g_internal).2 hge hlt
    simp only [clear_penalty, targetPool, slotAt, hw, if_pos, if_true, hres]
    refine ⟨by trivial, ?_, ?_⟩
    · rw [if_neg (not_lt.mpr hge)]
      exact hslot
    · rw [if_neg (not_lt.mpr hge)]
      exact List.getElem?_set_self hlt
  · obtain ⟨hge, hslot⟩ := reservePool_slot p.list_index s.J_internal
    have hlt : (reservePool p.list_index s.J_internal).1.toNat
        < (reservePool p.list_index s.J_internal).2.length :=
      (List.getElem?_eq_some.mp hslot).1
    have hres := reservePool_inrange (reservePool p.list_index s.J_internal).1
      (reservePool p.list_index s.J_internal).2 hge hlt
    simp only [clear_penalty, targetPool, slotAt, hw, if_neg, if_false, hres]
    refine ⟨by trivial, ?_, ?_⟩
    · rw [if_neg (not_lt.mpr hge)]
      exact hslot
    · rw [if_neg (not_lt.mpr hge)]
      exact List.getElem?_set_self hlt

/-- C6: `clear_penalty` never shrinks either pool, and reserving with a
preassigned `list_index = k` on a target pool shorter than `k + 1` grows it
to exactly `k + 1` entries, with every newly appended slot empty and the
slot at `k` empty. -/
theorem c6_pool_growth (p : MultinodePenalty) (s : PoolState) :
    s.g_internal.length ≤ ((clear_penalty p s).2).g_internal.length
  ∧ s.J_internal.length ≤ ((clear_penalty p s).2).J_internal.length
  ∧ (∀ k : Nat, p.list_index = (k : Int) → (targetPool p s).length < k + 1 →
      (targetPool p (clear_penalty p s).2).length = k + 1
      ∧ (∀ i : Nat, (targetPool p s).length ≤ i → i ≤ k →
          (targetPool p (clear_penalty p s).2)[i]? = some PoolSlot.empty)
      ∧ (targetPool p (clear_penalty p s).2)[k]? = some PoolSlot.empty) := by
  by_cases hw : p.weight = 0 <;>
    simp only [clear_penalty, targetPool, hw, if_pos, if_neg, if_true, if_false]
  · refine ⟨reservePool_length_mono _ _, le_refl _, ?_⟩
    intro k hk hlen
    rw [hk]
    obtain ⟨_, hl, hs⟩ := reservePool_grow k s.g_internal hlen
    exact ⟨hl, hs, hs k (by omega) (le_refl k)⟩
  · refine ⟨le_refl _, reservePool_length_mono _ _, ?_⟩
    intro k hk hlen
    rw [hk]
    obtain ⟨_, hl, hs⟩ := reservePool_grow k s.J_internal hlen
    exact ⟨hl, hs, hs k (by omega) (le_refl k)⟩

/-- C6 (witness): a penalty with `list_index = 2` and a target pool of
length 1 grows the pool to length 3 with slot 2 empty. -/
theorem c6_witness :
    (targetPool (samplePenalty 0 1 0 2)
        (clear_penalty (samplePenalty 0 1 0 2)
          { g_internal := [.filled (samplePenalty 0 1 0 0)], J_internal := [] }).2).length = 3
  ∧ (targetPool (samplePenalty 0 1 0 2)
        (clear_penalty (samplePenalty 0 1 0 2)
          { g_internal := [.filled (samplePenalty 0 1 0 0)], J_internal := [] }).2)[2]?
      = some PoolSlot.empty :=
  ⟨((c6_pool_growth (samplePenalty 0 1 0 2)
      { g_internal := [.filled (samplePenalty 0 1 0 0)], J_internal := [] }).2.2 2
      (by rfl) (by decide)).1,
   ((c6_pool_growth (samplePenalty 0 1 0 2)
      { g_internal := [.filled (samplePenalty 0 1 0 0)], J_internal := [] }).2.2 2
      (by rfl) (by decide)).2.2⟩

/-- C7: `MultinodeObjective`'s `clear_penalty` and `_add_penalty_to_pool`
never touch `g_internal` for any weight, and for nonzero weight they agree
exactly with `MultinodePenalty`'s operations (which then also run on
`J_internal`). -/
theorem c7_objective_pool_refinement (p : MultinodePenalty) (s : PoolState) :
    (obj_clear_penalty p s).2.g_internal = s.g_internal
  ∧ (∀ s', obj_add_penalty_to_pool p s = some s' → s'.g_internal = s.g_internal)
  ∧ (p.weight ≠ 0 →
      obj_clear_penalty p s = clear_penalty p s
    ∧ obj_add_penalty_to_pool p s = add_penalty_to_pool p s) := by
  refine ⟨rfl, ?_, ?_⟩
  · intro s' h
    unfold obj_add_penalty_to_pool at h
    cases hp : pyListSet s.J_internal p.list_index (.filled p) with
    | none => rw [hp] at h; exact absurd h (by simp)
    | some pool =>
      rw [hp] at h
      simp only [Option.map] at h
      cases h
      rfl
  · intro hw
    constructor
    · simp [obj_clear_penalty, clear_penalty, hw, reservePoolObj_eq]
    · simp [obj_add_penalty_to_pool, add_penalty_to_pool, hw]

/-- C7 (witness): at a concrete weight-5 penalty and pool state the
objective operations coincide with the penalty operations. -/
theorem c7_witness :
    obj_clear_penalty (samplePenalty 0 1 5 (-1))
        { g_internal := [], J_internal := [] }
      = clear_penalty (samplePenalty 0 1 5 (-1))
        { g_internal := [], J_internal := [] }
  ∧ obj_add_penalty_to_pool (samplePenalty 0 1 5 0)
        { g_internal := [], J_internal := [.empty] }
      = add_penalty_to_pool (samplePenalty 0 1 5 0)
        { g_internal := [], J_internal := [.empty] } :=
  ⟨((c7_objective_pool_refinement (samplePenalty 0 1 5 (-1))
      { g_internal := [], J_internal := [] }).2.2 (by decide)).1,
   ((c7_objective_pool_refinement (samplePenalty 0 1 5 0)
      { g_internal := [], J_internal := [.empty] }).2.2 (by decide)).2⟩

/-- C4: the EQUALITY strategy returns the elementwise difference of the
pre node's end-of-interval state mapped through `to_second` and the post
node's start-of-interval state mapped through `to_first`; on a shape
mismatch it fails with the message reporting both shapes, whose fixed tail
instructs the user to use a custom transition or supply `states_mapping`. -/
theorem c4_equality_residual (m : BiMapping) (nlp_pre nlp_post : Nlp) :
    ((m.to_second nlp_pre.states.cx_end).length
        = (m.to_first nlp_post.states.cx).length →
      equality m nlp_pre nlp_post =
        .ok (List.zipWith (· - ·) (m.to_second nlp_pre.states.cx_end)
          (m.to_first nlp_post.states.cx)))
  ∧ ((m.to_second nlp_pre.states.cx_end).length
        ≠ (m.to_first nlp_post.states.cx).length →
      equality m nlp_pre nlp_post =
        .error (continuityMismatchMsg (m.to_second nlp_pre.states.cx_end).length
          (m.to_first nlp_post.states.cx).length))
  ∧ (∀ a b : Nat, continuityMismatchMsg a b =
      "Continuity cannot be established since the number of x to be matched is "
        ++ toString a ++ " in the pre-transition phase and " ++ toString b ++
        " post-transition phase. Please use a custom transition or supply states_mapping") := by
  refine ⟨?_, ?_, fun a b => rfl⟩
  · intro h
    simp [equality, h]
  · intro h
    simp [equality, h]

/-- C4 (witness): identical 4-dimensional identity-mapped states give the
elementwise difference, and a 4-versus-2 mismatch gives the mismatch
message. -/
theorem c4_witness :
    equality sampleMapping (sampleNlp [0, 0, 0, 0] [1, 2, 3, 4])
        (sampleNlp [1, 1, 2, 2] [9, 9, 9, 9])
      = .ok [0, 1, 1, 2]
  ∧ equality sampleMapping (sampleNlp [0, 0, 0, 0] [1, 2, 3, 4])
        { states := { cx := [1, 1], cx_end := [], qIndexRows := [0],
                      qdotIndexRows := [1], keyShapes := [1, 1] },
          model := sampleModel }
      = .error (continuityMismatchMsg 4 2) := by
  constructor
  · have h := (c4_equality_residual sampleMapping
      (sampleNlp [0, 0, 0, 0] [1, 2, 3, 4]) (sampleNlp [1, 1, 2, 2] [9, 9, 9, 9])).1
      (by rfl)
    simpa [sampleMapping, sampleNlp] using h
  · have h := (c4_equality_residual sampleMapping
      (sampleNlp [0, 0, 0, 0] [1, 2, 3, 4])
      { states := { cx := [1, 1], cx_end := [], qIndexRows := [0],
                    qdotIndexRows := [1], keyShapes := [1, 1] },
        model := sampleModel }).2.1 (by decide)
    simpa [sampleMapping, sampleNlp] using h

/-- C8: the COM_VELOCITY_EQUALITY residual evaluates `CoMdot(pre) -
CoMdot(post)` with both CoMdot arguments of the pre side taken from the pre
node's end-of-interval state `cx_end` and both arguments of the post side
taken from the post node's start-of-interval state `cx`; the value never
reads the pre node's `cx`. -/
theorem c8_com_velocity_node_sides (m : BiMapping) (nlp_pre nlp_post : Nlp)
    (h : (m.to_second nlp_pre.states.cx_end).length
        = (m.to_first nlp_post.states.cx).length) :
    com_velocity_equality m nlp_pre nlp_post =
      .ok (List.zipWith (· - ·)
        (nlp_pre.model.CoMdot
          (rowSelect nlp_pre.states.cx_end nlp_pre.states.qIndexRows)
          (rowSelect nlp_pre.states.cx_end nlp_pre.states.qdotIndexRows))
        (nlp_post.model.CoMdot
          (symBlock nlp_post.states.keyShapes nlp_post.states.cx 0)
          (symBlock nlp_post.states.keyShapes nlp_post.states.cx 1)))
  ∧ (∀ c : List Int,
      com_velocity_equality m
        { nlp_pre with states := { nlp_pre.states with cx := c } } nlp_post =
        com_velocity_equality m nlp_pre nlp_post) := by
  constructor
  · simp [com_velocity_equality, h]
  · intro c
    simp [com_velocity_equality]

/-- C8 (witness): at concrete contexts the pre side of the CoM-velocity
residual is computed from `cx_end = [1, 2, 3, 4]` (q block `[1, 2]`, qdot
block `[3, 4]`), not from `cx = [0, 0, 0, 0]`. -/
theorem c8_witness :
    com_velocity_equality sampleMapping (sampleNlp [0, 0, 0, 0] [1, 2, 3, 4])
        (sampleNlp [1, 1, 2, 2] [9, 9, 9, 9])
      = .ok [1, 3] := by
  have h := (c8_com_velocity_node_sides sampleMapping
    (sampleNlp [0, 0, 0, 0] [1, 2, 3, 4]) (sampleNlp [1, 1, 2, 2] [9, 9, 9, 9])
    (by rfl)).1
  simpa [sampleMapping, sampleNlp, sampleModel, rowSelect, symBlock] using h

/-- C10: the COM_EQUALITY strategy checks shapes against the mapped
end-of-interval pre state, but the CoM difference it returns is evaluated
at the pre node's start-of-interval state `cx` (the built function is
called at `nlp_pre.states.cx`), so the result is invariant under changes of
`cx_end` that preserve the mapped length — unlike EQUALITY and
COM_VELOCITY_EQUALITY, whose pre side is evaluated at `cx_end`. -/
theorem c10_com_equality_pre_evaluated_at_start (m : BiMapping)
    (nlp_pre nlp_post : Nlp)
    (h : (m.to_second nlp_pre.states.cx_end).length
        = (m.to_first nlp_post.states.cx).length) :
    com_equality m nlp_pre nlp_post =
      .ok (List.zipWith (· - ·)
        (nlp_pre.model.CoM (rowSelect nlp_pre.states.cx nlp_pre.states.qIndexRows))
        (nlp_post.model.CoM (symBlock nlp_post.states.keyShapes nlp_post.states.cx 0)))
  ∧ (∀ e : List Int,
      (m.to_second e).length = (m.to_second nlp_pre.states.cx_end).length →
      com_equality m
        { nlp_pre with states := { nlp_pre.states with cx_end := e } } nlp_post =
        com_equality m nlp_pre nlp_post)
  ∧ equality m nlp_pre nlp_post =
      .ok (List.zipWith (· - ·) (m.to_second nlp_pre.states.cx_end)
        (m.to_first nlp_post.states.cx))
  ∧ com_velocity_equality m nlp_pre nlp_post =
      .ok (List.zipWith (· - ·)
        (nlp_pre.model.CoMdot
          (rowSelect nlp_pre.states.cx_end nlp_pre.states.qIndexRows)
          (rowSelect nlp_pre.states.cx_end nlp_pre.states.qdotIndexRows))
        (nlp_post.model.CoMdot
          (symBlock nlp_post.states.keyShapes nlp_post.states.cx 0)
          (symBlock nlp_post.states.keyShapes nlp_post.states.cx 1))) := by
  refine ⟨?_, ?_, ?_, ?_⟩
  · simp [com_equality, h]
  · intro e he
    simp [com_equality, he, h]
  · simp [equality, h]
  · simp [com_velocity_equality, h]

/-- C10 (witness): with `cx = [0, 0, 0, 0]` and `cx_end = [1, 2, 3, 4]` on
the pre side, COM_EQUALITY computes its CoM difference from the `cx` q
block `[0, 0]`, while EQUALITY computes its difference from `cx_end`. -/
theorem c10_witness :
    com_equality sampleMapping (sampleNlp [0, 0, 0, 0] [1, 2, 3, 4])
        (sampleNlp [1, 1, 2, 2] [9, 9, 9, 9])
      = .ok [-1, -1]
  ∧ equality sampleMapping (sampleNlp [0, 0, 0, 0] [1, 2, 3, 4])
        (sampleNlp [1, 1, 2, 2] [9, 9, 9, 9])
      = .ok [0, 1, 1, 2] := by
  have h := c10_com_equality_pre_evaluated_at_start sampleMapping
    (sampleNlp [0, 0, 0, 0] [1, 2, 3, 4]) (sampleNlp [1, 1, 2, 2] [9, 9, 9, 9])
    (by rfl)
  constructor
  · simpa [sampleMapping, sampleNlp, sampleModel, rowSelect, symBlock] using h.1
  · simpa [sampleMapping, sampleNlp] using h.2.2.1

end Bioptim
